import Mathlib

/-!
Shallow embedding of the gasless TON wallet transfer protocol
(`wdk-wallet-ton-gasless`): the jetton-transfer message builder, the
paymaster estimate step, the `quoteTransfer` and `transfer` orchestration,
and the signed-envelope submission, together with a model of JavaScript's
`Number(bigint)` conversion.

External collaborators (the `@ton/core` address parser, the paymaster API
and the chain client) are modelled as a deterministic environment oracle;
every network round-trip is recorded in an explicit trace so that ordering
and absence-of-call properties can be stated.
-/

deriving instance DecidableEq for Except

namespace TonGasless

/-- Network addresses (model of `@ton/core` `Address` values). -/
abbrev TonAddress := Nat

/-- Opaque cells (relay-provided payloads, wallet init data). -/
abbrev Cell := Nat

/-- One store operation of a `@ton/core` cell builder, kept in builder order. -/
inductive StoreOp where
  | uint (value bits : Nat)
  | coins (value : Nat)
  | addr (a : TonAddress)
  | bit (b : Bool)
  | maybeRef (r : Option Cell)
deriving DecidableEq

/-- An internal relaxed message (`internal({ to, value, bounce, body })`);
the source field `to` is named `dest` here because `to` is reserved. -/
structure MessageRelaxed where
  dest : TonAddress
  value : Nat
  bounce : Bool
  body : List StoreOp
deriving DecidableEq

/-- The transfer options `{ token, recipient, amount }`. -/
structure TransferOptions where
  token : String
  recipient : String
  amount : Nat
deriving DecidableEq

/-- The paymaster token configuration `{ address }`. -/
structure PaymasterToken where
  address : String
deriving DecidableEq

/-- The per-account (and per-call override) configuration slice used by the
transfer path: `paymasterToken` and the optional `transferMaxFee`. -/
structure TonGaslessWalletConfig where
  paymasterToken : PaymasterToken
  transferMaxFee : Option Nat
deriving DecidableEq

/-- One relay-prepared outer message of an estimate response. -/
structure RawMessage where
  address : TonAddress
  amount : Nat
  payload : Cell
deriving DecidableEq

/-- The paymaster estimate response (`SignRawParams`): the commission quote
(a JavaScript `bigint`, modelled as `Nat`) and the relay-prepared outer
messages. -/
structure SignRawParams where
  commission : Nat
  messages : List RawMessage
deriving DecidableEq

/-- An outgoing message stored in the wallet transfer cell. -/
structure OutMessage where
  dest : TonAddress
  value : Nat
  body : Cell
deriving DecidableEq

/-- The signed wallet transfer cell produced by `contract.createTransfer`:
it embeds the fetched seqno, the signing key, the send mode, the timeout and
the outer messages. -/
structure WalletTransfer where
  seqno : Nat
  secretKey : Nat
  sendMode : Nat
  timeout : Nat
  messages : List OutMessage
deriving DecidableEq

/-- The external envelope wrapped around a wallet transfer for submission
(`external({ init, to, body })`). -/
structure ExternalEnvelope where
  init : Option Cell
  dest : TonAddress
  body : WalletTransfer
deriving DecidableEq

/-- The canonical encoding of the signed transfer cell.  `transfer.hash()`
is the cell hash of this content; collision-resistance of the underlying
sha256 is abstracted by using the injective serialization itself as the
hash value. -/
def WalletTransfer.hash (t : WalletTransfer) : List Nat :=
  t.seqno :: t.sendMode :: t.timeout :: t.secretKey :: t.messages.length ::
    t.messages.flatMap (fun m => [m.dest, m.value, m.body])

/-- The wallet account: key pair, wallet contract address and init data,
and the stored account configuration. -/
structure Account where
  publicKey : Nat
  privateKey : Nat
  address : TonAddress
  init : Cell
  config : TonGaslessWalletConfig
deriving DecidableEq

/-- Network calls observable on a run, in issue order. -/
inductive NetCall where
  | gaslessConfig
  | getJettonWallet (token : String)
  | gaslessEstimate (paymasterAddress : TonAddress) (message : MessageRelaxed)
  | getSeqno
  | gaslessSend (walletPublicKey : Nat) (envelope : ExternalEnvelope)
deriving DecidableEq

/-- Environment oracle for the external collaborators: the address parser,
the paymaster's relay-address responses (indexed by how many `gaslessConfig`
queries were already issued, so that each query is observably fresh), the
jetton sub-account resolution, the estimate endpoint and the current time
(`Math.ceil(Date.now() / 1000)`). -/
structure GaslessEnv where
  parse : String → Option TonAddress
  relayAddressAt : Nat → TonAddress
  jettonWalletOf : String → TonAddress
  estimate : TonAddress → MessageRelaxed → SignRawParams
  now : Nat

/-- Mutable world state threaded through a run: the account (whose stored
configuration must never be mutated), the number of `gaslessConfig` queries
issued so far, and the wallet contract's on-chain seqno. -/
structure St where
  account : Account
  configCalls : Nat
  seqno : Nat
deriving DecidableEq

/-- Errors surfaced by the transfer path. -/
inductive Err where
  | parseError (input : String)
  | transferMaxFeeExceeded
deriving DecidableEq

def SendMode.PAY_GAS_SEPARATELY : Nat := 1

def SendMode.IGNORE_ERRORS : Nat := 2

/-- Model of `toNano(0.05)`: the nominal value attached to the built instruction. -/
def DUMMY_MESSAGE_VALUE : Nat := 50000000

/-- Translation of `_getGaslessTokenTransferMessage({ token, recipient, amount })`:
parse the recipient (failing eagerly, before any network call), fetch the
relay address from `gaslessConfig()`, resolve the sender's jetton wallet
address, and build the jetton-transfer body cell in builder order. -/
def getGaslessTokenTransferMessage (env : GaslessEnv) (st : St)
    (options : TransferOptions) :
    Except Err MessageRelaxed × List NetCall × St :=
  match env.parse options.recipient with
  | none => (.error (.parseError options.recipient), [], st)
  | some recipient =>
      let relayAddress := env.relayAddressAt st.configCalls
      let st1 : St := { st with configCalls := st.configCalls + 1 }
      let jettonWalletAddress := env.jettonWalletOf options.token
      let body : List StoreOp :=
        [ .uint 0xf8a7ea5 32
        , .uint 0 64
        , .coins options.amount
        , .addr recipient
        , .addr relayAddress
        , .bit false
        , .coins 1
        , .maybeRef none ]
      ( .ok { dest := jettonWalletAddress
            , value := DUMMY_MESSAGE_VALUE
            , bounce := true
            , body := body }
      , [.gaslessConfig, .getJettonWallet options.token]
      , st1 )

/-- Translation of `_getGaslessTokenTransferRawParams(message, { paymasterToken })`:
parse the paymaster token address and submit the serialized message to
`gaslessEstimate`, returning the paymaster's raw parameters. -/
def getGaslessTokenTransferRawParams (env : GaslessEnv) (st : St)
    (message : MessageRelaxed) (paymasterToken : PaymasterToken) :
    Except Err SignRawParams × List NetCall × St :=
  match env.parse paymasterToken.address with
  | none => (.error (.parseError paymasterToken.address), [], st)
  | some pm =>
      (.ok (env.estimate pm message), [.gaslessEstimate pm message], st)

/-- The fee guard condition `transferMaxFee !== undefined && fee >= transferMaxFee`. -/
def feeExceedsMax (fee : Nat) (transferMaxFee : Option Nat) : Bool :=
  match transferMaxFee with
  | some maxFee => decide (maxFee ≤ fee)
  | none => false

/-- Modelled from the spec: the wallet contract's per-account nonce
("seqno") is a monotonically-advancing sequence number maintained by the
on-chain wallet contract, which is not part of this repository's source;
the chain applying the envelope submitted by a completed sequential send is
modelled as incrementing the seqno by one. -/
def chainApplySend (st : St) : St :=
  { st with seqno := st.seqno + 1 }

/-- Translation of `_sendGaslessTokenTransfer(rawParams)`: fetch the seqno fresh, create
the signed wallet transfer embedding the relay's prepared outer messages,
wrap it in an external envelope carrying the wallet init data exactly when
the seqno is zero, submit it via `gaslessSend`, and return the transfer
cell's hash. -/
def sendGaslessTokenTransfer (env : GaslessEnv) (st : St)
    (rawParams : SignRawParams) :
    List Nat × List NetCall × St :=
  let seqno := st.seqno
  let transferCell : WalletTransfer :=
    { seqno := seqno
    , secretKey := st.account.privateKey
    , sendMode := SendMode.PAY_GAS_SEPARATELY + SendMode.IGNORE_ERRORS
    , timeout := env.now + 2 * 60
    , messages := rawParams.messages.map
        (fun message =>
          { dest := message.address
          , value := message.amount
          , body := message.payload }) }
  let boc : ExternalEnvelope :=
    { init := if seqno = 0 then some st.account.init else none
    , dest := st.account.address
    , body := transferCell }
  ( transferCell.hash
  , [.getSeqno, .gaslessSend st.account.publicKey boc]
  , chainApplySend st )

/-- The result of `transfer`: the locally computed hash and the fee, the
latter returned verbatim from the estimate commission (a `bigint`). -/
structure TransferResult where
  hash : List Nat
  fee : Nat
deriving DecidableEq

/-- The result of `quoteTransfer`: `{ fee: Number(commission) }`. -/
structure QuoteResult where
  fee : Nat
deriving DecidableEq

/-- Translation of `transfer(options, config)`: destructure `config ?? this._config`,
build the message, estimate, apply the fee guard on the raw commission,
then sign and submit, returning the hash and the commission verbatim. -/
def transfer (env : GaslessEnv) (st : St) (options : TransferOptions)
    (config : Option TonGaslessWalletConfig) :
    Except Err TransferResult × List NetCall × St :=
  let effective := config.getD st.account.config
  match getGaslessTokenTransferMessage env st options with
  | (.error e, tr1, st1) => (.error e, tr1, st1)
  | (.ok message, tr1, st1) =>
      match getGaslessTokenTransferRawParams env st1 message effective.paymasterToken with
      | (.error e, tr2, st2) => (.error e, tr1 ++ tr2, st2)
      | (.ok rawParams, tr2, st2) =>
          let fee := rawParams.commission
          if feeExceedsMax fee effective.transferMaxFee then
            (.error .transferMaxFeeExceeded, tr1 ++ tr2, st2)
          else
            let sent := sendGaslessTokenTransfer env st2 rawParams
            (.ok { hash := sent.1, fee := fee }, tr1 ++ tr2 ++ sent.2.1, sent.2.2)

/-- Bits in excess of the 53-bit double significand: the number of halvings
needed to bring `n` below `2 ^ 53` (fuel-bounded; any fuel of at least the
bit length of `n` is exact). -/
def excessBits : Nat → Nat → Nat
  | 0, _ => 0
  | fuel + 1, n => if n < 2 ^ 53 then 0 else excessBits fuel (n / 2) + 1

/-- Fuel covering every finite double (binary exponents below 1024). -/
def JS_NUMBER_FUEL : Nat := 1100

/-- JavaScript `Number(bigint)` on a non-negative value within the finite
double range: round to 53 significant bits, ties to even. -/
def jsNumberOfNat (n : Nat) : Nat :=
  let e := excessBits JS_NUMBER_FUEL n
  if e = 0 then n
  else
    let q := n / 2 ^ e
    let r := n % 2 ^ e
    let half := 2 ^ (e - 1)
    let q2 :=
      if r < half then q
      else if half < r then q + 1
      else if q % 2 = 0 then q else q + 1
    q2 * 2 ^ e

/-- Translation of `quoteTransfer(options, config)` (read-only account, inherited by the
full account): build the message, estimate with `config ?? this._config`,
and return `{ fee: Number(commission) }`; no nonce fetch, no submission. -/
def quoteTransfer (env : GaslessEnv) (st : St) (options : TransferOptions)
    (config : Option TonGaslessWalletConfig) :
    Except Err QuoteResult × List NetCall × St :=
  match getGaslessTokenTransferMessage env st options with
  | (.error e, tr1, st1) => (.error e, tr1, st1)
  | (.ok message, tr1, st1) =>
      match getGaslessTokenTransferRawParams env st1 message
          (config.getD st.account.config).paymasterToken with
      | (.error e, tr2, st2) => (.error e, tr1 ++ tr2, st2)
      | (.ok rawParams, tr2, st2) =>
          (.ok { fee := jsNumberOfNat rawParams.commission }, tr1 ++ tr2, st2)

/-- The calls a quote may perform: relay-address resolution, jetton wallet
resolution and estimation. -/
def NetCall.isQuotePhase : NetCall → Bool
  | .gaslessConfig => true
  | .getJettonWallet _ => true
  | .gaslessEstimate _ _ => true
  | .getSeqno => false
  | .gaslessSend _ _ => false

/-- A non-negative value exactly representable as an IEEE-754 double:
at most 53 significant bits with a binary exponent in the finite range. -/
def RepresentableDouble (n : Nat) : Prop :=
  ∃ m e, m < 2 ^ 53 ∧ e ≤ 971 ∧ n = m * 2 ^ e

/-- The message built for a successfully parsed recipient, as a function of
the environment, the pre-call state and the options. -/
def builtMessage (env : GaslessEnv) (st : St) (options : TransferOptions)
    (recipient : TonAddress) : MessageRelaxed :=
  { dest := env.jettonWalletOf options.token
  , value := DUMMY_MESSAGE_VALUE
  , bounce := true
  , body :=
      [ .uint 0xf8a7ea5 32
      , .uint 0 64
      , .coins options.amount
      , .addr recipient
      , .addr (env.relayAddressAt st.configCalls)
      , .bit false
      , .coins 1
      , .maybeRef none ] }

/-- A sample account configuration without a fee cap. -/
def sampleConfig : TonGaslessWalletConfig :=
  { paymasterToken := { address := "paymaster" }, transferMaxFee := none }

/-- A sample account configuration with a fee cap below the sample quote. -/
def sampleCfgCapped : TonGaslessWalletConfig :=
  { paymasterToken := { address := "paymaster" }, transferMaxFee := some 5000000 }

/-- A sample wallet account. -/
def sampleAccount : Account :=
  { publicKey := 11, privateKey := 12, address := 13, init := 14, config := sampleConfig }

/-- A sample deterministic environment: the empty string is the one
unparseable address, relay addresses rotate with the query index, and the
estimate commission depends on the submitted message. -/
def sampleEnv : GaslessEnv :=
  { parse := fun s => if s.length = 0 then none else some (100 + s.length)
  , relayAddressAt := fun i => 500 + i
  , jettonWalletOf := fun s => 900 + s.length
  , estimate := fun pm msg =>
      { commission := 5000000 + pm % 3 + msg.value % 5
      , messages := [{ address := 600, amount := 70, payload := 80 }] }
  , now := 1000 }

/-- A sample initial state: fresh account, no queries issued, seqno zero. -/
def sampleSt : St := { account := sampleAccount, configCalls := 0, seqno := 0 }

/-- A sample transfer request. -/
def sampleOptions : TransferOptions :=
  { token := "usdt", recipient := "dest1", amount := 1000 }

/-- A sample estimate response. -/
def sampleRaw : SignRawParams :=
  { commission := 5000000, messages := [{ address := 600, amount := 70, payload := 80 }] }

/-- A sample estimate response with the same outer messages as `sampleRaw`
but a different commission. -/
def sampleRaw2 : SignRawParams :=
  { commission := 777, messages := [{ address := 600, amount := 70, payload := 80 }] }

/-- A sample environment differing from `sampleEnv` only in the estimate
endpoint's responses. -/
def sampleEnv2 : GaslessEnv :=
  { sampleEnv with estimate := fun _ _ => sampleRaw2 }

/-- A sample transfer request whose recipient cannot be parsed. -/
def badOptions : TransferOptions := { token := "usdt", recipient := "", amount := 1000 }

/-- A predicate picking out the relay-address queries of a trace. -/
def NetCall.isRelayQuery : NetCall → Bool
  | .gaslessConfig => true
  | _ => false

/-- The state with the account's stored configuration replaced. -/
def St.withConfig (st : St) (c : TonGaslessWalletConfig) : St :=
  { st with account := { st.account with config := c } }

/-- A sample account whose stored configuration caps the fee at 5000000. -/
def acctCapped : Account :=
  { publicKey := 11, privateKey := 12, address := 13, init := 14, config := sampleCfgCapped }

/-- A sample state for the capped account. -/
def stCapped : St := { account := acctCapped, configCalls := 0, seqno := 5 }

/-- The message built by the first sample transfer call. -/
def msgOne : MessageRelaxed := builtMessage sampleEnv sampleSt sampleOptions 105

/-- The state after the first sample transfer call. -/
def stAfterOne : St := { account := sampleAccount, configCalls := 1, seqno := 1 }

/-- The message built by the second sample transfer call. -/
def msgTwo : MessageRelaxed := builtMessage sampleEnv stAfterOne sampleOptions 105

/-- The state after the second sample transfer call. -/
def stAfterTwo : St := { account := sampleAccount, configCalls := 2, seqno := 2 }

/-- The envelope submitted by the first sample transfer call. -/
def envelopeOne : ExternalEnvelope :=
  { init := some 14, dest := 13
  , body := { seqno := 0, secretKey := 12, sendMode := 3, timeout := 1120
            , messages := [{ dest := 600, value := 70, body := 80 }] } }

/-- The envelope submitted by the second sample transfer call. -/
def envelopeTwo : ExternalEnvelope :=
  { init := none, dest := 13
  , body := { seqno := 1, secretKey := 12, sendMode := 3, timeout := 1120
            , messages := [{ dest := 600, value := 70, body := 80 }] } }

/-- The network trace of the first sample transfer call. -/
def traceOne : List NetCall :=
  [ .gaslessConfig, .getJettonWallet sampleOptions.token
  , .gaslessEstimate 109 msgOne, .getSeqno, .gaslessSend 11 envelopeOne ]

/-- The network trace of the second sample transfer call. -/
def traceTwo : List NetCall :=
  [ .gaslessConfig, .getJettonWallet sampleOptions.token
  , .gaslessEstimate 109 msgTwo, .getSeqno, .gaslessSend 11 envelopeTwo ]
theorem getMessage_parse_none {env : GaslessEnv} {st : St}
    {options : TransferOptions} (h : env.parse options.recipient = none) :
    getGaslessTokenTransferMessage env st options
      = (.error (.parseError options.recipient), [], st) := by
  simp [getGaslessTokenTransferMessage, h]

theorem getMessage_parse_some {env : GaslessEnv} {st : St}
    {options : TransferOptions} {r : TonAddress}
    (h : env.parse options.recipient = some r) :
    getGaslessTokenTransferMessage env st options
      = (.ok (builtMessage env st options r),
         [.gaslessConfig, .getJettonWallet options.token],
         { st with configCalls := st.configCalls + 1 }) := by
  simp [getGaslessTokenTransferMessage, h, builtMessage]

theorem transfer_parse_none {env : GaslessEnv} {st : St}
    {options : TransferOptions} {config : Option TonGaslessWalletConfig}
    (h : env.parse options.recipient = none) :
    transfer env st options config
      = (.error (.parseError options.recipient), [], st) := by
  simp [transfer, getMessage_parse_none h]

theorem transfer_paymaster_none {env : GaslessEnv} {st : St}
    {options : TransferOptions} {config : Option TonGaslessWalletConfig}
    {r : TonAddress} (hr : env.parse options.recipient = some r)
    (hp : env.parse (config.getD st.account.config).paymasterToken.address = none) :
    transfer env st options config
      = (.error (.parseError (config.getD st.account.config).paymasterToken.address),
         [.gaslessConfig, .getJettonWallet options.token],
         { st with configCalls := st.configCalls + 1 }) := by
  simp [transfer, getMessage_parse_some hr, getGaslessTokenTransferRawParams, hp]

theorem transfer_paymaster_some {env : GaslessEnv} {st : St}
    {options : TransferOptions} {config : Option TonGaslessWalletConfig}
    {r pm : TonAddress} (hr : env.parse options.recipient = some r)
    (hp : env.parse (config.getD st.account.config).paymasterToken.address = some pm) :
    transfer env st options config
      = (let msg := builtMessage env st options r
         let raw := env.estimate pm msg
         let st2 : St := { st with configCalls := st.configCalls + 1 }
         if feeExceedsMax raw.commission (config.getD st.account.config).transferMaxFee then
           (.error .transferMaxFeeExceeded,
            [.gaslessConfig, .getJettonWallet options.token, .gaslessEstimate pm msg],
            st2)
         else
           (.ok { hash := (sendGaslessTokenTransfer env st2 raw).1
                , fee := raw.commission },
            [.gaslessConfig, .getJettonWallet options.token, .gaslessEstimate pm msg]
              ++ (sendGaslessTokenTransfer env st2 raw).2.1,
            (sendGaslessTokenTransfer env st2 raw).2.2)) := by
  simp only [transfer, getMessage_parse_some hr, getGaslessTokenTransferRawParams, hp]
  split <;> simp

theorem quote_parse_none {env : GaslessEnv} {st : St}
    {options : TransferOptions} {config : Option TonGaslessWalletConfig}
    (h : env.parse options.recipient = none) :
    quoteTransfer env st options config
      = (.error (.parseError options.recipient), [], st) := by
  simp [quoteTransfer, getMessage_parse_none h]

theorem quote_paymaster_none {env : GaslessEnv} {st : St}
    {options : TransferOptions} {config : Option TonGaslessWalletConfig}
    {r : TonAddress} (hr : env.parse options.recipient = some r)
    (hp : env.parse (config.getD st.account.config).paymasterToken.address = none) :
    quoteTransfer env st options config
      = (.error (.parseError (config.getD st.account.config).paymasterToken.address),
         [.gaslessConfig, .getJettonWallet options.token],
         { st with configCalls := st.configCalls + 1 }) := by
  simp [quoteTransfer, getMessage_parse_some hr, getGaslessTokenTransferRawParams, hp]

theorem quote_paymaster_some {env : GaslessEnv} {st : St}
    {options : TransferOptions} {config : Option TonGaslessWalletConfig}
    {r pm : TonAddress} (hr : env.parse options.recipient = some r)
    (hp : env.parse (config.getD st.account.config).paymasterToken.address = some pm) :
    quoteTransfer env st options config
      = (let msg := builtMessage env st options r
         let raw := env.estimate pm msg
         (.ok { fee := jsNumberOfNat raw.commission },
          [.gaslessConfig, .getJettonWallet options.token, .gaslessEstimate pm msg],
          { st with configCalls := st.configCalls + 1 })) := by
  simp [quoteTransfer, getMessage_parse_some hr, getGaslessTokenTransferRawParams, hp]

theorem send_hash_head {env : GaslessEnv} {st : St} {raw : SignRawParams} :
    (sendGaslessTokenTransfer env st raw).1.head? = some st.seqno := rfl

theorem send_final_state {env : GaslessEnv} {st : St} {raw : SignRawParams} :
    (sendGaslessTokenTransfer env st raw).2.2 = { st with seqno := st.seqno + 1 } := rfl

/-- C1 counterexample: with the same built instruction and the same nonce,
two paymaster estimate responses whose outer message lists differ lead the
send step to return different hashes, so the returned hash is not
independent of the paymaster's response. -/
theorem claim_C1_counterexample :
    (sendGaslessTokenTransfer sampleEnv sampleSt
        { commission := 5000000
        , messages := [{ address := 1, amount := 10, payload := 7 }] }).1
      ≠ (sendGaslessTokenTransfer sampleEnv sampleSt
        { commission := 5000000
        , messages := [{ address := 2, amount := 10, payload := 7 }] }).1 := by
  decide

/-- C1 (amended): the returned hash is computed from the signed transfer
cell, which embeds the relay's prepared outer messages: it is deterministic
given the relay's outer messages, the nonce, the account's key material and
the timestamp, but it does depend on the paymaster's estimate response
(`claim_C1_counterexample`); the commission part of the response is still
irrelevant to the hash. -/
theorem claim_C1 (env env' : GaslessEnv) (st st' : St)
    (raw raw' : SignRawParams)
    (hnow : env.now = env'.now) (hseq : st.seqno = st'.seqno)
    (hacct : st.account = st'.account) (hmsg : raw.messages = raw'.messages) :
    (sendGaslessTokenTransfer env st raw).1
      = (sendGaslessTokenTransfer env' st' raw').1 := by
  simp [sendGaslessTokenTransfer, WalletTransfer.hash, hnow, hseq, hacct, hmsg]

/-- C1 witness: the amended determinism applied at concrete inputs whose
estimate responses differ only in the commission. -/
theorem claim_C1_witness :
    (sendGaslessTokenTransfer sampleEnv sampleSt sampleRaw).1
      = (sendGaslessTokenTransfer sampleEnv2 sampleSt sampleRaw2).1 :=
  claim_C1 sampleEnv sampleEnv2 sampleSt sampleSt sampleRaw sampleRaw2
    rfl rfl rfl rfl

/-- C4: quoteTransfer performs only build, relay-resolution and estimation
calls — in particular it never fetches a nonce via getSeqno and never calls
the send endpoint — on every execution path, error paths included. -/
theorem claim_C4 (env : GaslessEnv) (st : St) (options : TransferOptions)
    (config : Option TonGaslessWalletConfig) :
    ((quoteTransfer env st options config).2.1.all NetCall.isQuotePhase) = true := by
  cases hr : env.parse options.recipient with
  | none => simp [quote_parse_none hr]
  | some r =>
    cases hp : env.parse (config.getD st.account.config).paymasterToken.address with
    | none => simp [quote_paymaster_none hr hp, NetCall.isQuotePhase]
    | some pm => simp [quote_paymaster_some hr hp, NetCall.isQuotePhase]

/-- C5: a transfer request whose recipient does not parse makes both
quoteTransfer and transfer fail with the parse error while the network
trace stays empty — so no paymaster call (relay-config fetch, estimate or
send) is ever made. -/
theorem claim_C5 (env : GaslessEnv) (st : St) (options : TransferOptions)
    (config : Option TonGaslessWalletConfig)
    (h : env.parse options.recipient = none) :
    quoteTransfer env st options config
        = (.error (.parseError options.recipient), [], st) ∧
      transfer env st options config
        = (.error (.parseError options.recipient), [], st) :=
  ⟨quote_parse_none h, transfer_parse_none h⟩

/-- C5 witness: the unparseable sample recipient fails both operations with
no network call. -/
theorem claim_C5_witness :
    quoteTransfer sampleEnv sampleSt badOptions none
        = (.error (.parseError badOptions.recipient), [], sampleSt) ∧
      transfer sampleEnv sampleSt badOptions none
        = (.error (.parseError badOptions.recipient), [], sampleSt) :=
  claim_C5 sampleEnv sampleSt badOptions none (by decide)

/-- C6: for a parsed recipient, the built instruction body consists, in
order, of the token-transfer operation tag, a zero query/correlation field,
the amount, the recipient address, a refund-excess-to address equal to the
relay address, a false flag bit, a one-base-unit forward-fee reservation
and an absent optional payload reference; the instruction is addressed to
the sender's jetton sub-account with the nominal attached value. -/
theorem claim_C6 (env : GaslessEnv) (st : St) (options : TransferOptions)
    (r : TonAddress) (h : env.parse options.recipient = some r) :
    getGaslessTokenTransferMessage env st options
      = (.ok { dest := env.jettonWalletOf options.token
             , value := DUMMY_MESSAGE_VALUE
             , bounce := true
             , body :=
                 [ .uint 0xf8a7ea5 32
                 , .uint 0 64
                 , .coins options.amount
                 , .addr r
                 , .addr (env.relayAddressAt st.configCalls)
                 , .bit false
                 , .coins 1
                 , .maybeRef none ] },
         [.gaslessConfig, .getJettonWallet options.token],
         { st with configCalls := st.configCalls + 1 }) := by
  simp [getGaslessTokenTransferMessage, h]

/-- C6 witness: the instruction built for the sample request, evaluated. -/
theorem claim_C6_witness :
    getGaslessTokenTransferMessage sampleEnv sampleSt sampleOptions
      = (.ok { dest := 904
             , value := 50000000
             , bounce := true
             , body :=
                 [ .uint 0xf8a7ea5 32
                 , .uint 0 64
                 , .coins 1000
                 , .addr 105
                 , .addr 500
                 , .bit false
                 , .coins 1
                 , .maybeRef none ] },
         [.gaslessConfig, .getJettonWallet sampleOptions.token],
         { account := sampleAccount, configCalls := 1, seqno := 0 }) :=
  claim_C6 sampleEnv sampleSt sampleOptions 105 (by decide)

theorem feeExceedsMax_true_iff (fee : Nat) (tmf : Option Nat) :
    feeExceedsMax fee tmf = true ↔ ∃ c, tmf = some c ∧ c ≤ fee := by
  cases tmf <;> simp [feeExceedsMax]

theorem transfer_no_cap_no_feeExceeded (env : GaslessEnv) (st : St)
    (options : TransferOptions) (config : Option TonGaslessWalletConfig)
    (h : (config.getD st.account.config).transferMaxFee = none) :
    (transfer env st options config).1 ≠ .error .transferMaxFeeExceeded := by
  cases hr : env.parse options.recipient with
  | none => simp [transfer_parse_none hr]
  | some r =>
    cases hp : env.parse (config.getD st.account.config).paymasterToken.address with
    | none => simp [transfer_paymaster_none hr hp]
    | some pm => simp [transfer_paymaster_some hr hp, feeExceedsMax, h]

/-- C2: with the build and estimate steps succeeding, transfer raises the
max-fee error iff a fee cap is configured and the quoted commission is
greater than or equal to it (a quote exactly equal to the cap is rejected);
with no cap configured transfer never raises it, on any path; and whenever
it raises, the trace holds only quote-phase calls — the nonce fetch and the
send endpoint are never reached. -/
theorem claim_C2 (env : GaslessEnv) (st : St) (options : TransferOptions)
    (config : Option TonGaslessWalletConfig)
    (msg : MessageRelaxed) (tr1 : List NetCall) (st1 : St)
    (hmsg : getGaslessTokenTransferMessage env st options = (.ok msg, tr1, st1))
    (raw : SignRawParams) (tr2 : List NetCall) (st2 : St)
    (hraw : getGaslessTokenTransferRawParams env st1 msg
        (config.getD st.account.config).paymasterToken = (.ok raw, tr2, st2)) :
    (((transfer env st options config).1 = .error .transferMaxFeeExceeded) ↔
       ∃ c, (config.getD st.account.config).transferMaxFee = some c
         ∧ c ≤ raw.commission) ∧
    (∀ (env' : GaslessEnv) (st' : St) (options' : TransferOptions)
       (config' : Option TonGaslessWalletConfig),
       (config'.getD st'.account.config).transferMaxFee = none →
         (transfer env' st' options' config').1 ≠ .error .transferMaxFeeExceeded) ∧
    ((transfer env st options config).1 = .error .transferMaxFeeExceeded →
       ((transfer env st options config).2.1.all NetCall.isQuotePhase) = true) := by
  cases hr : env.parse options.recipient with
  | none =>
    rw [getMessage_parse_none hr] at hmsg
    simp at hmsg
  | some r =>
    rw [getMessage_parse_some hr] at hmsg
    obtain ⟨hm, ht, hs⟩ := by simpa using hmsg
    subst hm
    subst hs
    cases hp : env.parse (config.getD st.account.config).paymasterToken.address with
    | none =>
      rw [getGaslessTokenTransferRawParams, hp] at hraw
      simp at hraw
    | some pm =>
      rw [getGaslessTokenTransferRawParams, hp] at hraw
      obtain ⟨hraweq, -, -⟩ := by simpa using hraw
      subst hraweq
      refine ⟨?_, fun env' st' options' config' h =>
        transfer_no_cap_no_feeExceeded env' st' options' config' h, ?_⟩
      · rw [transfer_paymaster_some hr hp]
        by_cases hg : feeExceedsMax
            ((env.estimate pm (builtMessage env st options r)).commission)
            ((config.getD st.account.config).transferMaxFee)
        · simp only [hg, if_true]
          simpa using (feeExceedsMax_true_iff _ _).mp hg
        · rw [if_neg (by simpa using hg)]
          constructor
          · intro h
            exact absurd h (by simp)
          · intro h
            exact absurd ((feeExceedsMax_true_iff _ _).mpr h) hg
      · intro hfe
        rw [transfer_paymaster_some hr hp] at hfe ⊢
        by_cases hg : feeExceedsMax
            ((env.estimate pm (builtMessage env st options r)).commission)
            ((config.getD st.account.config).transferMaxFee)
        · simp [hg, NetCall.isQuotePhase]
        · simp [hg] at hfe

/-- C2 witness: with the sample per-call cap of 5000000 and the sample
quote of 5000001, the guard trips. -/
theorem claim_C2_witness :
    (transfer sampleEnv sampleSt sampleOptions (some sampleCfgCapped)).1
      = .error .transferMaxFeeExceeded :=
  (claim_C2 sampleEnv sampleSt sampleOptions (some sampleCfgCapped)
      (builtMessage sampleEnv sampleSt sampleOptions 105)
      [.gaslessConfig, .getJettonWallet sampleOptions.token]
      { account := sampleAccount, configCalls := 1, seqno := 0 }
      (by decide)
      (sampleEnv.estimate 109 (builtMessage sampleEnv sampleSt sampleOptions 105))
      [.gaslessEstimate 109 (builtMessage sampleEnv sampleSt sampleOptions 105)]
      { account := sampleAccount, configCalls := 1, seqno := 0 }
      (by decide)).1.mpr ⟨5000000, rfl, by decide⟩

/-- C7: every transfer and quoteTransfer call with a parseable recipient
issues exactly one relay-address query; the refund address embedded in the
instruction body (field five of the body) is the relay address returned by
that very query, and the query counter advances so no later call can see
the same response. -/
theorem claim_C7 (env : GaslessEnv) (st : St) (options : TransferOptions)
    (config : Option TonGaslessWalletConfig) (r : TonAddress)
    (hr : env.parse options.recipient = some r) :
    ((quoteTransfer env st options config).2.1.countP NetCall.isRelayQuery = 1) ∧
    ((transfer env st options config).2.1.countP NetCall.isRelayQuery = 1) ∧
    (∀ msg tr1 st1,
       getGaslessTokenTransferMessage env st options = (.ok msg, tr1, st1) →
         msg.body.get? 4 = some (.addr (env.relayAddressAt st.configCalls)) ∧
         st1.configCalls = st.configCalls + 1) := by
  refine ⟨?_, ?_, ?_⟩
  · cases hp : env.parse (config.getD st.account.config).paymasterToken.address with
    | none =>
      simp [quote_paymaster_none hr hp, List.countP_cons, NetCall.isRelayQuery]
    | some pm =>
      simp [quote_paymaster_some hr hp, List.countP_cons, NetCall.isRelayQuery]
  · cases hp : env.parse (config.getD st.account.config).paymasterToken.address with
    | none =>
      simp [transfer_paymaster_none hr hp, List.countP_cons, NetCall.isRelayQuery]
    | some pm =>
      rw [transfer_paymaster_some hr hp]
      by_cases hg : feeExceedsMax
          ((env.estimate pm (builtMessage env st options r)).commission)
          ((config.getD st.account.config).transferMaxFee) <;>
        simp [hg, sendGaslessTokenTransfer, List.countP_cons, NetCall.isRelayQuery]
  · intro msg tr1 st1 hmsg
    rw [getMessage_parse_some hr] at hmsg
    obtain ⟨hm, -, hs⟩ := by simpa using hmsg
    subst hm
    subst hs
    exact ⟨rfl, rfl⟩

/-- C7 witness: the sample request issues one relay query on each path and
embeds the relay address of query index zero. -/
theorem claim_C7_witness :
    ((quoteTransfer sampleEnv sampleSt sampleOptions none).2.1.countP
        NetCall.isRelayQuery = 1) ∧
    ((transfer sampleEnv sampleSt sampleOptions none).2.1.countP
        NetCall.isRelayQuery = 1) ∧
    (∀ msg tr1 st1,
       getGaslessTokenTransferMessage sampleEnv sampleSt sampleOptions
           = (.ok msg, tr1, st1) →
         msg.body.get? 4 = some (.addr (sampleEnv.relayAddressAt sampleSt.configCalls)) ∧
         st1.configCalls = sampleSt.configCalls + 1) :=
  claim_C7 sampleEnv sampleSt sampleOptions none 105 (by decide)

/-- C3 counterexample: the account's stored configuration caps the fee at
5000000 and the quoted commission is 5000001, at or above the cap, yet a
per-call config that omits maxFee makes the transfer succeed — the account
default maxFee is NOT consulted by the fee guard when a per-call config is
supplied. -/
theorem claim_C3_counterexample :
    stCapped.account.config.transferMaxFee = some 5000000 ∧
    5000000 ≤ 5000001 ∧
    (transfer sampleEnv stCapped sampleOptions (some sampleConfig)).1
      = .ok { hash := [5, 3, 1120, 12, 1, 600, 70, 80], fee := 5000001 } := by
  refine ⟨rfl, by norm_num, by decide⟩

/-- C3 (amended): paymasterToken and maxFee come from the per-call config
when one is supplied and from the account configuration otherwise; a
supplied per-call config replaces both values wholesale — running with a
per-call config is observationally identical to running with the account
configuration swapped for it, so an omitted per-call maxFee disables the
cap instead of falling back to the account default — and no call mutates
the account's stored configuration. -/
theorem claim_C3 (env : GaslessEnv) (st : St) (options : TransferOptions) :
    (∀ c : TonGaslessWalletConfig,
       (transfer env st options (some c)).1
           = (transfer env (St.withConfig st c) options none).1 ∧
       (transfer env st options (some c)).2.1
           = (transfer env (St.withConfig st c) options none).2.1 ∧
       (quoteTransfer env st options (some c)).1
           = (quoteTransfer env (St.withConfig st c) options none).1 ∧
       (quoteTransfer env st options (some c)).2.1
           = (quoteTransfer env (St.withConfig st c) options none).2.1) ∧
    (∀ config : Option TonGaslessWalletConfig,
       (transfer env st options config).2.2.account = st.account ∧
       (quoteTransfer env st options config).2.2.account = st.account) := by
  constructor
  · intro c
    cases hr : env.parse options.recipient with
    | none =>
      simp [transfer_parse_none hr, quote_parse_none hr]
    | some r =>
      cases hp : env.parse c.paymasterToken.address with
      | none =>
        have hpL : env.parse
            ((some c).getD st.account.config).paymasterToken.address = none := hp
        have hpR : env.parse
            ((none : Option TonGaslessWalletConfig).getD
              (St.withConfig st c).account.config).paymasterToken.address = none := hp
        simp [transfer_paymaster_none hr hpL, transfer_paymaster_none hr hpR,
          quote_paymaster_none hr hpL, quote_paymaster_none hr hpR]
        rfl
      | some pm =>
        have hpL : env.parse
            ((some c).getD st.account.config).paymasterToken.address = some pm := hp
        have hpR : env.parse
            ((none : Option TonGaslessWalletConfig).getD
              (St.withConfig st c).account.config).paymasterToken.address = some pm := hp
        rw [transfer_paymaster_some hr hpL, transfer_paymaster_some hr hpR,
          quote_paymaster_some hr hpL, quote_paymaster_some hr hpR]
        by_cases hg : feeExceedsMax
            ((env.estimate pm (builtMessage env st options r)).commission)
            c.transferMaxFee <;>
          simp [St.withConfig, builtMessage, sendGaslessTokenTransfer,
            WalletTransfer.hash, chainApplySend] at hg ⊢ <;>
          simp [hg]
  · intro config
    cases hr : env.parse options.recipient with
    | none =>
      simp [transfer_parse_none hr, quote_parse_none hr]
    | some r =>
      cases hp : env.parse (config.getD st.account.config).paymasterToken.address with
      | none =>
        simp [transfer_paymaster_none hr hp, quote_paymaster_none hr hp]
      | some pm =>
        rw [transfer_paymaster_some hr hp, quote_paymaster_some hr hp]
        by_cases hg : feeExceedsMax
            ((env.estimate pm (builtMessage env st options r)).commission)
            ((config.getD st.account.config).transferMaxFee) <;>
          simp [hg, sendGaslessTokenTransfer, chainApplySend]

theorem transfer_ok_inversion {env : GaslessEnv} {st : St}
    {options : TransferOptions} {config : Option TonGaslessWalletConfig}
    {res : TransferResult} {tr : List NetCall} {st' : St}
    (h : transfer env st options config = (.ok res, tr, st')) :
    st'.seqno = st.seqno + 1 ∧ res.hash.head? = some st.seqno := by
  cases hr : env.parse options.recipient with
  | none =>
    rw [transfer_parse_none hr] at h
    simp at h
  | some r =>
    cases hp : env.parse (config.getD st.account.config).paymasterToken.address with
    | none =>
      rw [transfer_paymaster_none hr hp] at h
      simp at h
    | some pm =>
      rw [transfer_paymaster_some hr hp] at h
      by_cases hg : feeExceedsMax
          ((env.estimate pm (builtMessage env st options r)).commission)
          ((config.getD st.account.config).transferMaxFee)
      · simp [hg] at h
      · rw [if_neg (by simpa using hg)] at h
        obtain ⟨hres, -, hst⟩ := by simpa using h
        subst hres
        subst hst
        exact ⟨rfl, rfl⟩

/-- C8: two sequential successful transfer calls with the same request from
the same account fetch strictly increasing nonces (the second one is the
first plus one) and return different hashes. -/
theorem claim_C8 (env : GaslessEnv) (st : St) (options : TransferOptions)
    (config : Option TonGaslessWalletConfig)
    (res1 res2 : TransferResult) (tr1 tr2 : List NetCall) (st1 st2 : St)
    (h1 : transfer env st options config = (.ok res1, tr1, st1))
    (h2 : transfer env st1 options config = (.ok res2, tr2, st2)) :
    st1.seqno = st.seqno + 1 ∧ st.seqno < st1.seqno ∧ res1.hash ≠ res2.hash := by
  obtain ⟨hs1, hh1⟩ := transfer_ok_inversion h1
  obtain ⟨hs2, hh2⟩ := transfer_ok_inversion h2
  refine ⟨hs1, by omega, ?_⟩
  intro he
  rw [he] at hh1
  have hsome := hh1.symm.trans hh2
  simp at hsome
  omega

/-- C8 witness: two sequential sample transfers, their fetched nonces and
their distinct hashes, evaluated. -/
theorem claim_C8_witness :
    stAfterOne.seqno = sampleSt.seqno + 1 ∧ sampleSt.seqno < stAfterOne.seqno ∧
      ({ hash := [0, 3, 1120, 12, 1, 600, 70, 80], fee := 5000001 } : TransferResult).hash
        ≠ ({ hash := [1, 3, 1120, 12, 1, 600, 70, 80], fee := 5000001 } : TransferResult).hash :=
  claim_C8 sampleEnv sampleSt sampleOptions none
    { hash := [0, 3, 1120, 12, 1, 600, 70, 80], fee := 5000001 }
    { hash := [1, 3, 1120, 12, 1, 600, 70, 80], fee := 5000001 }
    traceOne traceTwo stAfterOne stAfterTwo (by decide) (by decide)

theorem excessBits_le {m : Nat} (fuel : Nat) (hm : m < 2 ^ 53) :
    ∀ e, m * 2 ^ e < 2 ^ 53 * 2 ^ fuel → excessBits fuel (m * 2 ^ e) ≤ e := by
  induction fuel with
  | zero =>
    intro e _
    simp [excessBits]
  | succ f ih =>
    intro e hn
    by_cases h : m * 2 ^ e < 2 ^ 53
    · simp only [excessBits, -Nat.reducePow]
      rw [if_pos h]
      exact Nat.zero_le e
    · have he : e ≠ 0 := by
        rintro rfl
        rw [pow_zero, mul_one] at h
        exact h hm
      obtain ⟨e', rfl⟩ : ∃ e', e = e' + 1 := ⟨e - 1, by omega⟩
      have hdiv : m * 2 ^ (e' + 1) / 2 = m * 2 ^ e' := by
        rw [pow_succ, ← mul_assoc]
        exact Nat.mul_div_cancel _ (by norm_num)
      have hn' : m * 2 ^ e' < 2 ^ 53 * 2 ^ f := by
        have h1 : m * 2 ^ (e' + 1) = m * 2 ^ e' * 2 := by ring
        have h2 : (2 : ℕ) ^ 53 * 2 ^ (f + 1) = 2 ^ 53 * 2 ^ f * 2 := by ring
        rw [h1, h2] at hn
        omega
      simp only [excessBits, -Nat.reducePow]
      rw [if_neg h, hdiv]
      exact Nat.succ_le_succ (ih e' hn')

theorem jsNumberOfNat_representable {n : Nat} (h : RepresentableDouble n) :
    jsNumberOfNat n = n := by
  obtain ⟨m, e, hm, he, rfl⟩ := h
  have hfuel : m * 2 ^ e < 2 ^ 53 * 2 ^ JS_NUMBER_FUEL := by
    calc m * 2 ^ e < 2 ^ 53 * 2 ^ e :=
          Nat.mul_lt_mul_of_lt_of_le hm (le_refl _) (by positivity)
      _ ≤ 2 ^ 53 * 2 ^ JS_NUMBER_FUEL := by
          apply Nat.mul_le_mul_left
          exact Nat.pow_le_pow_right (by norm_num) (by simp [JS_NUMBER_FUEL]; omega)
  have hE := excessBits_le JS_NUMBER_FUEL hm e hfuel
  unfold jsNumberOfNat
  by_cases h0 : excessBits JS_NUMBER_FUEL (m * 2 ^ e) = 0
  · simp [h0]
  · have hdvd : 2 ^ excessBits JS_NUMBER_FUEL (m * 2 ^ e) ∣ m * 2 ^ e :=
      Dvd.dvd.mul_left (pow_dvd_pow 2 hE) m
    have hmod : m * 2 ^ e % 2 ^ excessBits JS_NUMBER_FUEL (m * 2 ^ e) = 0 :=
      Nat.mod_eq_zero_of_dvd hdvd
    have hpos : 0 < 2 ^ (excessBits JS_NUMBER_FUEL (m * 2 ^ e) - 1) := by positivity
    simp [h0, hmod, hpos, Nat.div_mul_cancel hdvd]

/-- C9: the external envelope submitted to the paymaster embeds the
wallet's initialization data iff the freshly fetched seqno equals its
initial value zero; for a nonzero seqno the init field is absent. -/
theorem claim_C9 (env : GaslessEnv) (st : St) (rawParams : SignRawParams) :
    ∃ envl : ExternalEnvelope,
      (sendGaslessTokenTransfer env st rawParams).2.1
          = [.getSeqno, .gaslessSend st.account.publicKey envl] ∧
        envl.init = (if st.seqno = 0 then some st.account.init else none) ∧
        (envl.init.isSome ↔ st.seqno = 0) := by
  refine ⟨_, rfl, rfl, ?_⟩
  by_cases h : st.seqno = 0 <;> simp [h]

/-- C10: transfer returns the estimate commission verbatim as its fee (no
numeric conversion), while quoteTransfer returns it converted through the
JavaScript Number() model; the converted fee equals the exact commission on
every value exactly representable as a double, and differs from it for some
commission at or above `2 ^ 53`. -/
theorem claim_C10 (env : GaslessEnv) (st : St) (options : TransferOptions)
    (config : Option TonGaslessWalletConfig)
    (msg : MessageRelaxed) (tr1 : List NetCall) (st1 : St)
    (hmsg : getGaslessTokenTransferMessage env st options = (.ok msg, tr1, st1))
    (raw : SignRawParams) (tr2 : List NetCall) (st2 : St)
    (hraw : getGaslessTokenTransferRawParams env st1 msg
        (config.getD st.account.config).paymasterToken = (.ok raw, tr2, st2)) :
    (∀ res tr st', transfer env st options config = (.ok res, tr, st') →
        res.fee = raw.commission) ∧
    ((quoteTransfer env st options config).1
        = .ok { fee := jsNumberOfNat raw.commission }) ∧
    (∀ q, RepresentableDouble q → jsNumberOfNat q = q) ∧
    (2 ^ 53 ≤ 2 ^ 53 + 1 ∧ jsNumberOfNat (2 ^ 53 + 1) ≠ 2 ^ 53 + 1) := by
  cases hr : env.parse options.recipient with
  | none =>
    rw [getMessage_parse_none hr] at hmsg
    simp at hmsg
  | some r =>
    rw [getMessage_parse_some hr] at hmsg
    obtain ⟨hm, -, hs⟩ := by simpa using hmsg
    subst hm
    subst hs
    cases hp : env.parse (config.getD st.account.config).paymasterToken.address with
    | none =>
      rw [getGaslessTokenTransferRawParams, hp] at hraw
      simp at hraw
    | some pm =>
      rw [getGaslessTokenTransferRawParams, hp] at hraw
      obtain ⟨hraweq, -, -⟩ := by simpa using hraw
      subst hraweq
      refine ⟨?_, ?_, fun q hq => jsNumberOfNat_representable hq,
        by norm_num, by decide⟩
      · intro res tr st' h
        rw [transfer_paymaster_some hr hp] at h
        by_cases hg : feeExceedsMax
            ((env.estimate pm (builtMessage env st options r)).commission)
            ((config.getD st.account.config).transferMaxFee)
        · simp [hg] at h
        · rw [if_neg (by simpa using hg)] at h
          obtain ⟨hres, -, -⟩ := by simpa using h
          subst hres
          rfl
      · rw [quote_paymaster_some hr hp]

/-- C10 witness: the sample quote fee is the converted commission; the
conversion is the identity on a representable value and moves a value just
above `2 ^ 53`. -/
theorem claim_C10_witness :
    ((quoteTransfer sampleEnv sampleSt sampleOptions none).1
        = .ok { fee := jsNumberOfNat 5000001 }) ∧
    jsNumberOfNat (3 * 2 ^ 60) = 3 * 2 ^ 60 ∧
    jsNumberOfNat (2 ^ 53 + 1) ≠ 2 ^ 53 + 1 := by
  have h := claim_C10 sampleEnv sampleSt sampleOptions none
    (builtMessage sampleEnv sampleSt sampleOptions 105)
    [.gaslessConfig, .getJettonWallet sampleOptions.token]
    { account := sampleAccount, configCalls := 1, seqno := 0 }
    (by decide)
    (sampleEnv.estimate 109 (builtMessage sampleEnv sampleSt sampleOptions 105))
    [.gaslessEstimate 109 (builtMessage sampleEnv sampleSt sampleOptions 105)]
    { account := sampleAccount, configCalls := 1, seqno := 0 }
    (by decide)
  refine ⟨h.2.1.trans (by decide),
    h.2.2.1 (3 * 2 ^ 60) ⟨3, 60, by norm_num, by norm_num, rfl⟩,
    h.2.2.2.2⟩
end TonGasless
